import Mathlib

/-!
Verification development for the `ai-trip-planner` edge function
(`supabase/functions/ai-trip-planner/index.ts`).

The TypeScript source is shallowly embedded below:
* JSON values decoded by `JSON.parse` / sent in request bodies are modelled
  by the inductive type `JsonVal` (numbers as exact rationals `ℚ`; the
  engine's binary64 arithmetic coincides with exact arithmetic on every
  value any theorem in this file evaluates).
* JavaScript strings are modelled as their sequences of characters
  (`String` / `List Char`); all concrete inputs used by theorems are ASCII,
  where this agrees with UTF-16 code units.
* Exceptions (`throw`) are modelled with `Except String`.
* The regex-based rewrites of `normalizeJsonText` are implemented as
  explicit left-to-right scanners with a fuel argument (the fuel only makes
  the recursion structural; the top-level wrappers always supply enough).
-/

set_option maxRecDepth 4000

/-- Left brace character (written via its code point so that brace
characters appear nowhere in the surface syntax of this file). -/
def lbrace : Char := Char.ofNat 123

/-- Right brace character. -/
def rbrace : Char := Char.ofNat 125

/-- Values produced by `JSON.parse` (and the decoded request bodies the
handler receives).  Object members are kept in source order; duplicate keys
are resolved by `jsGet`, which takes the last occurrence, as JavaScript
object literals do. -/
inductive JsonVal where
  | null : JsonVal
  | bool : Bool → JsonVal
  | num : ℚ → JsonVal
  | str : String → JsonVal
  | arr : List JsonVal → JsonVal
  | obj : List (String × JsonVal) → JsonVal

/-- Property read `v[key]` on a decoded JSON value: only objects have the
string-keyed own properties the handler reads; a duplicate key resolves to
its last occurrence.  `none` models `undefined`. -/
def jsGet (v : JsonVal) (key : String) : Option JsonVal :=
  match v with
  | JsonVal.obj l => (l.reverse.find? (fun p => p.1 == key)).map (fun p => p.2)
  | _ => none

/-- JavaScript truthiness of a decoded JSON value (`NaN` and `undefined`
cannot occur inside decoded JSON). -/
def jsTruthy : JsonVal → Bool
  | JsonVal.null => false
  | JsonVal.bool b => b
  | JsonVal.num q => !(q == 0)
  | JsonVal.str s => !(s == "")
  | JsonVal.arr _ => true
  | JsonVal.obj _ => true

/-- Truthiness of a possibly-absent value (`none` models `undefined`). -/
def jsTruthyOpt : Option JsonVal → Bool
  | none => false
  | some v => jsTruthy v

/-- The `typeof v === 'object'` test on a decoded JSON value: `null`,
arrays and objects all have typeof `object`. -/
def jsTypeofObject : JsonVal → Bool
  | JsonVal.null => true
  | JsonVal.arr _ => true
  | JsonVal.obj _ => true
  | _ => false

/-- Decimal rendering of an integer, as JavaScript renders integral
numbers in the range every theorem here uses. -/
def intRender (n : ℤ) : String :=
  if n < 0 then "-" ++ toString n.natAbs else toString n.natAbs

/-- Rendering of a JavaScript number.  Integral values render exactly as
JavaScript renders them (every theorem below only ever evaluates this on
integral values); for non-integral rationals we render `num/den`, which,
like the engine's decimal rendering, can never match the UUID or date
patterns the validator tests renderings against. -/
def numRender (q : ℚ) : String :=
  if q.den = 1 then intRender q.num
  else intRender q.num ++ "/" ++ toString q.den

mutual

/-- The `String(v)` coercion on a decoded JSON value. -/
def jsToString : JsonVal → String
  | JsonVal.null => "null"
  | JsonVal.bool b => if b then "true" else "false"
  | JsonVal.num q => numRender q
  | JsonVal.str s => s
  | JsonVal.arr l => jsJoin l
  | JsonVal.obj _ => "[object Object]"

/-- `Array.prototype.join(',')`, used by `String(array)`; `null` elements
render as the empty string there. -/
def jsJoin : List JsonVal → String
  | [] => ""
  | [JsonVal.null] => ""
  | [v] => jsToString v
  | JsonVal.null :: rest => "," ++ jsJoin rest
  | v :: rest => jsToString v ++ "," ++ jsJoin rest

end

/-- Whitespace recognised by JavaScript's `\s`, `String.prototype.trim`
and `Number(string)` (ASCII part plus the common Unicode space
characters). -/
def isJsWs (c : Char) : Bool :=
  c = ' ' ∨ c = '\t' ∨ c = '\n' ∨ c.toNat = 11 ∨ c.toNat = 12 ∨
  c = '\r' ∨ c.toNat = 0xa0 ∨ c.toNat = 0x1680 ∨
  (0x2000 ≤ c.toNat ∧ c.toNat ≤ 0x200a) ∨ c.toNat = 0x2028 ∨
  c.toNat = 0x2029 ∨ c.toNat = 0x202f ∨ c.toNat = 0x205f ∨
  c.toNat = 0x3000 ∨ c.toNat = 0xfeff

/-- JavaScript `String.prototype.trim`. -/
def jsTrim (s : String) : String :=
  ⟨((s.data.dropWhile isJsWs).reverse.dropWhile isJsWs).reverse⟩

/-- Decimal digit test. -/
def isDigitChar (c : Char) : Bool := '0' ≤ c ∧ c ≤ '9'

/-- Hexadecimal digit test (both cases, as the UUID regex is
case-insensitive). -/
def isHexDigit (c : Char) : Bool :=
  ('0' ≤ c ∧ c ≤ '9') ∨ ('a' ≤ c ∧ c ≤ 'f') ∨ ('A' ≤ c ∧ c ≤ 'F')

/-- Value of a decimal digit. -/
def digitVal (c : Char) : ℕ := c.toNat - '0'.toNat

/-- Value of a digit string (most significant first). -/
def digitsVal (l : List Char) : ℕ :=
  l.foldl (fun acc c => 10 * acc + digitVal c) 0

/-- Embeds `isValidUUID` (index.ts lines 11–14): the string must match
`/^[0-9a-f]{8}-[0-9a-f]{4}-[0-9a-f]{4}-[0-9a-f]{4}-[0-9a-f]{12}$/i`,
i.e. have length 36 with dashes at positions 8, 13, 18, 23 and hex digits
everywhere else. -/
def isValidUUID (s : String) : Bool :=
  let l := s.data
  l.length == 36 &&
  (List.range 36).all (fun i =>
    if i = 8 ∨ i = 13 ∨ i = 18 ∨ i = 23 then l.getD i ' ' == '-'
    else isHexDigit (l.getD i ' '))

/-- Parses the exact `\d{4}-\d{2}-\d{2}` shape into (year, month, day). -/
def parseYMD (l : List Char) : Option (ℕ × ℕ × ℕ) :=
  match l with
  | [y1, y2, y3, y4, d1, m1, m2, d2, dd1, dd2] =>
    if d1 = '-' ∧ d2 = '-' ∧
       isDigitChar y1 ∧ isDigitChar y2 ∧ isDigitChar y3 ∧ isDigitChar y4 ∧
       isDigitChar m1 ∧ isDigitChar m2 ∧ isDigitChar dd1 ∧ isDigitChar dd2 then
      some (digitsVal [y1, y2, y3, y4], digitsVal [m1, m2], digitsVal [dd1, dd2])
    else none
  | _ => none

/-- Gregorian leap-year rule. -/
def isLeapYear (y : ℕ) : Bool := y % 4 = 0 ∧ (y % 100 ≠ 0 ∨ y % 400 = 0)

/-- Number of days in a month. -/
def daysInMonth (y m : ℕ) : ℕ :=
  if m = 2 then (if isLeapYear y then 29 else 28)
  else if m = 4 ∨ m = 6 ∨ m = 9 ∨ m = 11 then 30
  else 31

/-- Embeds `isValidDateString` (index.ts lines 16–21): the regex
`/^\d{4}-\d{2}-\d{2}$/` plus `!isNaN(new Date(str).getTime())`.  For
date-only ISO strings the ECMAScript parser yields a valid `Date` exactly
when the month is 01–12 and the day is within that month. -/
def isValidDateString (s : String) : Bool :=
  match parseYMD s.data with
  | some (y, m, d) => 1 ≤ m ∧ m ≤ 12 ∧ 1 ≤ d ∧ d ≤ daysInMonth y m
  | none => false

/-- Days from 0000-01-01 (proleptic Gregorian) to year `y`'s January 1. -/
def daysBeforeYear (y : ℕ) : ℕ :=
  365 * y + (y + 3) / 4 - (y + 99) / 100 + (y + 399) / 400

/-- Cumulative days before month `m` in a common year. -/
def daysBeforeMonth (m : ℕ) : ℕ :=
  [0, 0, 31, 59, 90, 120, 151, 181, 212, 243, 273, 304, 334].getD m 0

/-- Day number (UTC) of a calendar date relative to the Unix epoch,
matching `Date.UTC(y, m-1, d) / 86400000`. -/
def epochDays (y m d : ℕ) : ℤ :=
  (daysBeforeYear y : ℤ) +
    (daysBeforeMonth m : ℤ) +
    (if 3 ≤ m ∧ isLeapYear y then 1 else 0) +
    (d : ℤ) - 1 - (daysBeforeYear 1970 : ℤ)

/-- Embeds `new Date(str).getTime()` for a date-only ISO string: UTC
midnight of that calendar day, in milliseconds.  The validator only calls
this after `isValidDateString` has succeeded, so the default for the
unparseable case is never reached there. -/
def jsDateMs (s : String) : ℤ :=
  match parseYMD s.data with
  | some (y, m, d) => epochDays y m d * 86400000
  | none => 0

/-- Embeds `sanitizeString` (index.ts lines 23–27):
`str.slice(0, maxLength).replace(/[<>{}]/g, '')`. -/
def sanitizeString (s : String) (maxLength : ℕ) : String :=
  ⟨(s.data.take maxLength).filter
    (fun c => !(c = '<' ∨ c = '>' ∨ c = lbrace ∨ c = rbrace))⟩

/-- The normalized trip request returned by `validateTripInput`
(index.ts lines 29–122).  `travelers` and `budget` are JavaScript numbers
(here: exact rationals; the validator in fact constrains `travelers` to an
integer in `[1, 20]`). -/
structure TripRequest where
  tripId : String
  destination : String
  startDate : String
  endDate : String
  travelers : ℚ
  budget : Option ℚ
  preferences : List String
deriving DecidableEq

/-- Backtick character (written via its code point). -/
def btick : Char := Char.ofNat 96

/-- Embeds the first rewrite of `normalizeJsonText` (index.ts line 131):
`text.replace(/,\s*([}\]])/g, '$1')` — a comma followed by optional
whitespace and a closing brace/bracket is replaced by just that bracket.
The scanner walks left to right exactly as a global regex replace does;
the fuel argument only makes the recursion structural and, at the
top-level call, never runs out. -/
def replTrailingCommas : ℕ → List Char → List Char
  | 0, l => l
  | _ + 1, [] => []
  | fuel + 1, c :: rest =>
    if c = ',' then
      match rest.dropWhile isJsWs with
      | b :: tail =>
        if b = rbrace ∨ b = ']' then b :: replTrailingCommas fuel tail
        else c :: replTrailingCommas fuel rest
      | [] => c :: replTrailingCommas fuel rest
    else c :: replTrailingCommas fuel rest

/-- Embeds the second rewrite of `normalizeJsonText` (index.ts line 134):
`text.replace(/[\x00-\x1F\x7F]/g, '')`. -/
def stripControlChars (l : List Char) : List Char :=
  l.filter (fun c => !(c.toNat ≤ 0x1f ∨ c.toNat = 0x7f))

/-- Lexes `\d+(?:\.\d+)?`: returns the matched lexeme, its value as a
scaled natural (mantissa, decimal scale), and the rest.  The optional
fraction participates exactly when a dot with at least one digit follows
the integer digits (regex greediness is deterministic here because a
digit can never double as whitespace or an operator). -/
def lexNumLit (l : List Char) : Option (List Char × ℕ × ℕ × List Char) :=
  let intPart := l.takeWhile isDigitChar
  let afterInt := l.dropWhile isDigitChar
  if intPart = [] then none
  else
    match afterInt with
    | '.' :: rest =>
      let fracPart := rest.takeWhile isDigitChar
      if fracPart = [] then some (intPart, digitsVal intPart, 0, afterInt)
      else
        some (intPart ++ '.' :: fracPart,
          digitsVal (intPart ++ fracPart), fracPart.length,
          rest.dropWhile isDigitChar)
    | _ => some (intPart, digitsVal intPart, 0, afterInt)

/-- The lookahead `(?=\s*[\n,}\]])` of the two numeric rewrites. -/
def sepLookahead (l : List Char) : Bool :=
  match l.dropWhile isJsWs with
  | c :: _ => c = '\n' ∨ c = ',' ∨ c = rbrace ∨ c = ']'
  | [] => false

/-- `Math.round(Number(a) * Number(b))` for the two matched
non-negative decimal literals `a = ma/10^sa` and `b = mb/10^sb`
(round half towards positive infinity, computed exactly; on every value a
theorem in this file evaluates, binary64 arithmetic is exact and finite,
so the `Number.isFinite` guard of index.ts line 142 always takes the
rounded product). -/
def roundProduct (ma sa mb sb : ℕ) : ℕ :=
  (2 * (ma * mb) + 10 ^ (sa + sb)) / (2 * 10 ^ (sa + sb))

/-- Embeds the third rewrite of `normalizeJsonText` (index.ts lines
138–144): a value position that is exactly `number * number` followed by
a separator is replaced by `: ` and the rounded product. -/
def multRewrite : ℕ → List Char → List Char
  | 0, l => l
  | _ + 1, [] => []
  | fuel + 1, c :: rest =>
    if c = ':' then
      match lexNumLit (rest.dropWhile isJsWs) with
      | none => c :: multRewrite fuel rest
      | some (_, ma, sa, afterA) =>
        match afterA.dropWhile isJsWs with
        | '*' :: afterStar =>
          match lexNumLit (afterStar.dropWhile isJsWs) with
          | none => c :: multRewrite fuel rest
          | some (_, mb, sb, afterB) =>
            if sepLookahead afterB then
              ':' :: ' ' :: (intRender (roundProduct ma sa mb sb)).data ++
                multRewrite fuel afterB
            else c :: multRewrite fuel rest
        | _ => c :: multRewrite fuel rest
    else c :: multRewrite fuel rest

/-- Embeds the fourth rewrite of `normalizeJsonText` (index.ts line 148):
`text.replace(/:\s*(\d+(?:\.\d+)?)(?:\s*\([^)]*\))(?=\s*[\n,}\]])/g,
(_m, num) => `: ${num}`)` — a numeric value followed by a parenthetical
note and a separator keeps only the number. -/
def parenStrip : ℕ → List Char → List Char
  | 0, l => l
  | _ + 1, [] => []
  | fuel + 1, c :: rest =>
    if c = ':' then
      match lexNumLit (rest.dropWhile isJsWs) with
      | none => c :: parenStrip fuel rest
      | some (lit, _, _, afterNum) =>
        match afterNum.dropWhile isJsWs with
        | '(' :: afterParen =>
          let inner := afterParen.takeWhile (fun x => x ≠ ')')
          match afterParen.dropWhile (fun x => x ≠ ')') with
          | ')' :: afterClose =>
            if sepLookahead afterClose then
              ':' :: ' ' :: lit ++ parenStrip fuel afterClose
            else c :: parenStrip fuel rest
          | _ =>
            -- no closing parenthesis: `[^)]*\)` cannot match
            match inner with
            | _ => c :: parenStrip fuel rest
        | _ => c :: parenStrip fuel rest
    else c :: parenStrip fuel rest

/-- Embeds `normalizeJsonText` (index.ts lines 127–151): the four passes
in source order. -/
def normalizeJsonText (input : String) : String :=
  let t1 := replTrailingCommas (input.data.length + 1) input.data
  let t2 := stripControlChars t1
  let t3 := multRewrite (t2.length + 1) t2
  ⟨parenStrip (t3.length + 1) t3⟩

/-- One pass of `.replace(/```json\s*/gi, '')` (index.ts line 154): three
backticks followed by `json` case-insensitively and any whitespace are
deleted. -/
def stripJsonFences : ℕ → List Char → List Char
  | 0, l => l
  | _ + 1, [] => []
  | fuel + 1, c :: rest =>
    match c :: rest with
    | c0 :: c1 :: c2 :: j :: s :: o :: n :: tail =>
      if c0 = btick ∧ c1 = btick ∧ c2 = btick ∧
         (j = 'j' ∨ j = 'J') ∧ (s = 's' ∨ s = 'S') ∧
         (o = 'o' ∨ o = 'O') ∧ (n = 'n' ∨ n = 'N') then
        stripJsonFences fuel (tail.dropWhile isJsWs)
      else c :: stripJsonFences fuel rest
    | _ => c :: stripJsonFences fuel rest

/-- One pass of `.replace(/```\s*/g, '')` (index.ts line 154). -/
def stripPlainFences : ℕ → List Char → List Char
  | 0, l => l
  | _ + 1, [] => []
  | fuel + 1, c :: rest =>
    match c :: rest with
    | c0 :: c1 :: c2 :: tail =>
      if c0 = btick ∧ c1 = btick ∧ c2 = btick then
        stripPlainFences fuel (tail.dropWhile isJsWs)
      else c :: stripPlainFences fuel rest
    | _ => c :: stripPlainFences fuel rest

/-- The slicing core of `extractJsonCandidate` (index.ts lines 153–161):
trim, strip code fences, trim again, then slice from the first left brace
to the last right brace; `none` when either is absent or in the wrong
order. -/
def extractJsonCore (text : String) : Option String :=
  let t := (jsTrim text).data
  let cleaned := (jsTrim ⟨stripPlainFences (t.length + 1)
    (stripJsonFences (t.length + 1) t)⟩).data
  match cleaned.findIdx? (fun c => c = lbrace),
        cleaned.reverse.findIdx? (fun c => c = rbrace) with
  | some start, some revEnd =>
    let endIdx := cleaned.length - 1 - revEnd
    if endIdx ≤ start then none
    else some ⟨(cleaned.drop start).take (endIdx + 1 - start)⟩
  | _, _ => none

/-- Embeds `extractJsonCandidate` (index.ts lines 153–161); the failing
cases throw `No JSON object found in AI response`. -/
def extractJsonCandidate (text : String) : Except String String :=
  match extractJsonCore text with
  | some s => Except.ok s
  | none => Except.error "No JSON object found in AI response"

/-- JSON insignificant whitespace (RFC 8259: space, tab, line feed,
carriage return). -/
def jsonSkipWs (l : List Char) : List Char :=
  l.dropWhile (fun c => c = ' ' ∨ c = '\t' ∨ c = '\n' ∨ c = '\r')

/-- Parses the body of a JSON string (the opening quote already
consumed), handling the escape sequences `JSON.parse` accepts.  A `\u`
escape denoting a lone surrogate cannot be represented as a scalar
`Char`; `Char.ofNat` maps it to NUL (no input considered in this file
contains `\u` escapes). -/
def parseJString : ℕ → List Char → Option (List Char × List Char)
  | 0, _ => none
  | _ + 1, [] => none
  | fuel + 1, c :: rest =>
    if c = '"' then some ([], rest)
    else if c = '\\' then
      match rest with
      | e :: rest2 =>
        if e = 'u' then
          match rest2 with
          | h1 :: h2 :: h3 :: h4 :: rest3 =>
            if isHexDigit h1 ∧ isHexDigit h2 ∧ isHexDigit h3 ∧ isHexDigit h4 then
              (parseJString fuel rest3).map (fun (s, r) =>
                (Char.ofNat ([h1, h2, h3, h4].foldl (fun acc x =>
                  16 * acc + (if x ≤ '9' then x.toNat - '0'.toNat
                    else if x ≤ 'F' then x.toNat - 'A'.toNat + 10
                    else x.toNat - 'a'.toNat + 10)) 0) :: s, r))
            else none
          | _ => none
        else
          let esc : Option Char :=
            if e = '"' then some '"'
            else if e = '\\' then some '\\'
            else if e = '/' then some '/'
            else if e = 'b' then some (Char.ofNat 8)
            else if e = 'f' then some (Char.ofNat 12)
            else if e = 'n' then some '\n'
            else if e = 'r' then some '\r'
            else if e = 't' then some '\t'
            else none
          match esc with
          | some ch => (parseJString fuel rest2).map (fun (s, r) => (ch :: s, r))
          | none => none
      | [] => none
    else if c.toNat < 0x20 then none
    else (parseJString fuel rest).map (fun (s, r) => (c :: s, r))

/-- Parses a JSON number token, returning its exact rational value. -/
def parseJNumber (l : List Char) : Option (ℚ × List Char) :=
  let (neg, afterSign) : Bool × List Char :=
    match l with
    | '-' :: rest => (true, rest)
    | _ => (false, l)
  let intPart := afterSign.takeWhile isDigitChar
  let afterInt := afterSign.dropWhile isDigitChar
  if intPart = [] ∨ (intPart.headD ' ' = '0' ∧ intPart.length ≠ 1) then none
  else
    let (fracPart, afterFrac) : List Char × List Char :=
      match afterInt with
      | '.' :: rest => (rest.takeWhile isDigitChar, rest.dropWhile isDigitChar)
      | _ => ([], afterInt)
    if afterInt ≠ [] ∧ afterInt.headD ' ' = '.' ∧ fracPart = [] then none
    else
      let expOpt : Option (ℤ × List Char) :=
        match afterFrac with
        | e :: rest =>
          if e = 'e' ∨ e = 'E' then
            match rest with
            | '-' :: ds =>
              if ds.takeWhile isDigitChar = [] then none
              else some (-(digitsVal (ds.takeWhile isDigitChar) : ℤ),
                ds.dropWhile isDigitChar)
            | '+' :: ds =>
              if ds.takeWhile isDigitChar = [] then none
              else some ((digitsVal (ds.takeWhile isDigitChar) : ℤ),
                ds.dropWhile isDigitChar)
            | ds =>
              if ds.takeWhile isDigitChar = [] then none
              else some ((digitsVal (ds.takeWhile isDigitChar) : ℤ),
                ds.dropWhile isDigitChar)
          else some (0, afterFrac)
        | [] => some (0, afterFrac)
      match expOpt with
      | none => none
      | some (ex, rest) =>
        let m : ℤ :=
          (if neg then -1 else 1) * (digitsVal (intPart ++ fracPart) : ℤ)
        let scale : ℤ := ex - (fracPart.length : ℤ)
        if 0 ≤ scale then some (mkRat (m * 10 ^ scale.toNat) 1, rest)
        else some (mkRat m (10 ^ (-scale).toNat), rest)

mutual

/-- Recursive-descent parser for a JSON value, modelling `JSON.parse`
(numbers as exact rationals).  The leading whitespace must already be
skipped.  The fuel decreases at every call and bounds the recursion
depth; the top-level wrapper always supplies enough. -/
def parseJValue : ℕ → List Char → Option (JsonVal × List Char)
  | 0, _ => none
  | _ + 1, [] => none
  | fuel + 1, c :: rest =>
    if c = '"' then
      (parseJString fuel rest).map (fun (s, r) => (JsonVal.str ⟨s⟩, r))
    else if c = lbrace then
      match jsonSkipWs rest with
      | c2 :: tail =>
        if c2 = rbrace then some (JsonVal.obj [], tail)
        else
          (parseJMembers fuel (c2 :: tail)).map (fun (ms, r) =>
            (JsonVal.obj ms, r))
      | [] => none
    else if c = '[' then
      match jsonSkipWs rest with
      | c2 :: tail =>
        if c2 = ']' then some (JsonVal.arr [], tail)
        else
          (parseJElements fuel (c2 :: tail)).map (fun (vs, r) =>
            (JsonVal.arr vs, r))
      | [] => none
    else if c = 't' then
      if ['r', 'u', 'e'].isPrefixOf rest then
        some (JsonVal.bool true, rest.drop 3)
      else none
    else if c = 'f' then
      if ['a', 'l', 's', 'e'].isPrefixOf rest then
        some (JsonVal.bool false, rest.drop 4)
      else none
    else if c = 'n' then
      if ['u', 'l', 'l'].isPrefixOf rest then
        some (JsonVal.null, rest.drop 3)
      else none
    else if c = '-' ∨ isDigitChar c then
      (parseJNumber (c :: rest)).map (fun (q, r) => (JsonVal.num q, r))
    else none

/-- Parses the non-empty member list of a JSON object (the opening brace
and leading whitespace already consumed). -/
def parseJMembers : ℕ → List Char → Option (List (String × JsonVal) × List Char)
  | 0, _ => none
  | fuel + 1, l =>
    match l with
    | c :: rest =>
      if c = '"' then
        match parseJString fuel rest with
        | none => none
        | some (k, afterKey) =>
          match jsonSkipWs afterKey with
          | ':' :: afterColon =>
            match parseJValue fuel (jsonSkipWs afterColon) with
            | none => none
            | some (v, afterVal) =>
              match jsonSkipWs afterVal with
              | ',' :: afterComma =>
                (parseJMembers fuel (jsonSkipWs afterComma)).map
                  (fun (ms, r) => ((⟨k⟩, v) :: ms, r))
              | c2 :: afterBrace =>
                if c2 = rbrace then some ([(⟨k⟩, v)], afterBrace) else none
              | [] => none
          | _ => none
      else none
    | [] => none

/-- Parses the non-empty element list of a JSON array (the opening
bracket and leading whitespace already consumed). -/
def parseJElements : ℕ → List Char → Option (List JsonVal × List Char)
  | 0, _ => none
  | fuel + 1, l =>
    match parseJValue fuel l with
    | none => none
    | some (v, afterVal) =>
      match jsonSkipWs afterVal with
      | ',' :: afterComma =>
        (parseJElements fuel (jsonSkipWs afterComma)).map
          (fun (vs, r) => (v :: vs, r))
      | ']' :: afterBracket => some ([v], afterBracket)
      | _ => none

end

/-- Embeds `JSON.parse`: a single JSON value with optional surrounding
whitespace; `none` models the thrown `SyntaxError`. -/
def jsonParse (s : String) : Option JsonVal :=
  match parseJValue (s.data.length + 8) (jsonSkipWs s.data) with
  | some (v, rest) => if jsonSkipWs rest = [] then some v else none
  | none => none

/-- Embeds index.ts lines 38–40: `!body || typeof body !== 'object'`. -/
def requireObject (body : JsonVal) : Except String Unit :=
  if jsTruthy body && jsTypeofObject body then Except.ok ()
  else Except.error "Invalid request body"

/-- Embeds index.ts lines 44–47: tripId must be present (truthy) and its
stringification must match the UUID pattern.  (When the field is absent
`String(undefined)` is "undefined"; the truthiness test short-circuits
first, so the default stringification below is unreachable.) -/
def checkTripId (body : JsonVal) : Except String String :=
  if !(jsTruthyOpt (jsGet body "tripId")) ||
     !(isValidUUID (jsToString ((jsGet body "tripId").getD JsonVal.null))) then
    Except.error "Invalid or missing tripId"
  else Except.ok (jsToString ((jsGet body "tripId").getD JsonVal.null))

/-- Embeds index.ts lines 49–55: destination must be a truthy string with
non-empty trim (one shared error message), and at most 200 characters. -/
def checkDestination (body : JsonVal) : Except String String :=
  match jsGet body "destination" with
  | some (JsonVal.str s) =>
    if s = "" then Except.error "Destination is required"
    else if (jsTrim s).length = 0 then Except.error "Destination is required"
    else if s.length > 200 then
      Except.error "Destination must be less than 200 characters"
    else Except.ok s
  | _ => Except.error "Destination is required"

/-- Embeds index.ts lines 57–65 for one of the two date fields. -/
def checkDateField (body : JsonVal) (key emsg : String) :
    Except String String :=
  if !(jsTruthyOpt (jsGet body key)) ||
     !(isValidDateString (jsToString ((jsGet body key).getD JsonVal.null))) then
    Except.error emsg
  else Except.ok (jsToString ((jsGet body key).getD JsonVal.null))

/-- Ceiling of the exact quotient `a / b` for `b > 0`, written with
Euclidean division so that it evaluates by kernel reduction. -/
def ceilDiv (a b : ℤ) : ℤ := -((-a).ediv b)

/-- Embeds index.ts line 75:
`Math.ceil((endDate.getTime() - startDate.getTime()) / (1000*60*60*24))`.
Both operands are exact multiples of a millisecond and the binary64
quotient of our date values is exact enough that `Math.ceil` agrees with
the exact rational ceiling, which this integer form computes. -/
def durationDaysOfMs (sMs eMs : ℤ) : ℤ :=
  ceilDiv (eMs - sMs) (1000 * 60 * 60 * 24)

/-- Embeds index.ts lines 67–78: the date ordering and 90-day duration
checks. -/
def checkDateLogic (startDate endDate : String) : Except String Unit :=
  if jsDateMs endDate < jsDateMs startDate then
    Except.error "End date must be after start date"
  else if durationDaysOfMs (jsDateMs startDate) (jsDateMs endDate) > 90 then
    Except.error "Trip duration cannot exceed 90 days"
  else Except.ok ()

/-- Numeric parse of a string (`Number(string)` / `StringToNumber`):
trimmed empty string is 0; decimal, hex, octal and binary literal forms;
`none` models `NaN`.  (`Infinity` is also mapped to `none`: everywhere the
validator consumes this, an infinite value fails the very same range check
that `NaN` fails, with the same error message.) -/
def jsParseNumber (s : String) : Option ℚ :=
  let l := (s.data.dropWhile isJsWs).reverse.dropWhile isJsWs |>.reverse
  match l with
  | [] => some 0
  | '0' :: 'x' :: rest =>
    if rest ≠ [] ∧ rest.all isHexDigit then
      some ((rest.foldl (fun acc c =>
        16 * acc + (if c ≤ '9' then c.toNat - '0'.toNat
          else if c ≤ 'F' then c.toNat - 'A'.toNat + 10
          else c.toNat - 'a'.toNat + 10)) 0 : ℕ) : ℚ)
    else none
  | '0' :: 'o' :: rest =>
    if rest ≠ [] ∧ rest.all (fun c => '0' ≤ c ∧ c ≤ '7') then
      some ((rest.foldl (fun acc c => 8 * acc + digitVal c) 0 : ℕ) : ℚ)
    else none
  | '0' :: 'b' :: rest =>
    if rest ≠ [] ∧ rest.all (fun c => c = '0' ∨ c = '1') then
      some ((rest.foldl (fun acc c => 2 * acc + digitVal c) 0 : ℕ) : ℚ)
    else none
  | _ =>
    let (neg, body) : Bool × List Char :=
      match l with
      | '-' :: rest => (true, rest)
      | '+' :: rest => (false, rest)
      | _ => (false, l)
    let intPart := body.takeWhile isDigitChar
    let afterInt := body.dropWhile isDigitChar
    let (fracPart, afterFrac) :=
      match afterInt with
      | '.' :: rest => (rest.takeWhile isDigitChar, rest.dropWhile isDigitChar)
      | _ => ([], afterInt)
    if intPart = [] ∧ fracPart = [] then none
    else
      let expParse : Option ℤ :=
        match afterFrac with
        | [] => some 0
        | e :: rest =>
          if e = 'e' ∨ e = 'E' then
            match rest with
            | '-' :: ds => if ds ≠ [] ∧ ds.all isDigitChar then some (-(digitsVal ds : ℤ)) else none
            | '+' :: ds => if ds ≠ [] ∧ ds.all isDigitChar then some (digitsVal ds : ℤ) else none
            | ds => if ds ≠ [] ∧ ds.all isDigitChar then some (digitsVal ds : ℤ) else none
          else none
      match expParse with
      | none => none
      | some ex =>
        let m : ℤ :=
          (if neg then -1 else 1) * (digitsVal (intPart ++ fracPart) : ℤ)
        let scale : ℤ := ex - (fracPart.length : ℤ)
        if 0 ≤ scale then some (mkRat (m * 10 ^ scale.toNat) 1)
        else some (mkRat m (10 ^ (-scale).toNat))

/-- The `Number(v)` coercion on a decoded JSON value; `none` models `NaN`.
Arrays coerce through their `','`-join, objects are always `NaN`. -/
def jsToNumber : JsonVal → Option ℚ
  | JsonVal.num q => some q
  | JsonVal.null => some 0
  | JsonVal.bool b => some (if b then 1 else 0)
  | JsonVal.str s => jsParseNumber s
  | JsonVal.obj _ => none
  | JsonVal.arr l => jsParseNumber (jsJoin l)

/-- Embeds index.ts lines 80–87: travelers defaults to 1 and must
otherwise coerce to an integer in `[1, 20]` (`Rat.den = 1` is
`Number.isInteger`). -/
def checkTravelers (body : JsonVal) : Except String ℚ :=
  match jsGet body "travelers" with
  | none => Except.ok 1
  | some v =>
    match jsToNumber v with
    | none => Except.error "Travelers must be an integer between 1 and 20"
    | some q =>
      if q < 1 ∨ q > 20 ∨ q.den ≠ 1 then
        Except.error "Travelers must be an integer between 1 and 20"
      else Except.ok q

/-- Embeds index.ts lines 89–96: budget defaults to null and must
otherwise coerce to a number in `[0, 100000000]`. -/
def checkBudget (body : JsonVal) : Except String (Option ℚ) :=
  match jsGet body "budget" with
  | none => Except.ok none
  | some JsonVal.null => Except.ok none
  | some v =>
    match jsToNumber v with
    | none => Except.error "Budget must be a positive number"
    | some q =>
      if q < 0 ∨ q > 100000000 then
        Except.error "Budget must be a positive number"
      else Except.ok (some q)

/-- String projection used by `.filter((p): p is string => ...)`. -/
def getStr : JsonVal → Option String
  | JsonVal.str s => some s
  | _ => none

/-- Embeds index.ts lines 98–111: preferences must be an array of at most
15 entries; non-strings are dropped, survivors are sanitized to 50 chars
and empties dropped. -/
def checkPreferences (body : JsonVal) : Except String (List String) :=
  match jsGet body "preferences" with
  | none => Except.ok []
  | some (JsonVal.arr l) =>
    if l.length > 15 then Except.error "Maximum 15 preferences allowed"
    else Except.ok
      (((l.filterMap getStr).map (fun p => sanitizeString p 50)).filter
        (fun p => p.length > 0))
  | some _ => Except.error "Preferences must be an array"

/-- Substring containment, `String.prototype.includes`. -/
def jsIncludes (hay needle : String) : Bool :=
  hay.data.tails.any (fun t => needle.data.isPrefixOf t)

/-- The embedded choice error `data.choices?.[0]?.error` of a completion
response: its `.message` when that is a truthy string (`none` models an
absent or falsy message, for which the source falls back to a default),
and `.metadata?.raw` when present. -/
structure ChoiceError where
  message : Option String
  metadataRaw : Option String

/-- The decoded completion-gateway response, projected to the three
fields the handler reads: whether `data.error` is truthy (with its
`.message` when that is a truthy string), the embedded
`data.choices?.[0]?.error`, and `data.choices?.[0]?.message.content`
when it is a string. -/
structure GatewayResponse where
  topError : Bool
  topErrorMessage : Option String
  choiceErr : Option ChoiceError
  content : Option String

/-- The rate-limit test of index.ts line 450:
`parsed.error?.status === 'RESOURCE_EXHAUSTED' || parsed.error?.code === 429`. -/
def isRateLimitMeta (v : JsonVal) : Bool :=
  (match (jsGet v "error").bind (fun e => jsGet e "status") with
   | some (JsonVal.str s) => s == "RESOURCE_EXHAUSTED"
   | _ => false) ||
  (match (jsGet v "error").bind (fun e => jsGet e "code") with
   | some (JsonVal.num q) => q == 429
   | _ => false)

/-- The message index.ts line 451 throws for a detected rate limit. -/
def busyMessage : String :=
  "AI service is temporarily busy. Please try again in a few minutes."

/-- Embeds index.ts lines 444–457, the handling of an embedded choice
error.  The metadata inspection (lines 446–456) sits inside
`try { const parsed = JSON.parse(rawMetadata); if (...) throw new Error(busy) } catch (e) { /* Ignore parse errors for metadata */ }`:
the `catch` discards every exception raised in the `try` body — the
JSON.parse failure it was written for, but also the deliberate
rate-limit `throw` of line 451 — so the block never affects control flow
and line 457 always throws the generic choice-error message.
`innerTry` below is that discarded block, kept to mirror the source. -/
def choiceErrorMessage (ce : ChoiceError) : String :=
  let innerTry : Except String Unit :=
    match ce.metadataRaw with
    | none => Except.ok ()
    | some raw =>
      match jsonParse raw with
      | none => Except.ok ()
      | some parsed =>
        if isRateLimitMeta parsed then Except.error busyMessage
        else Except.ok ()
  match innerTry with
  | _ => ce.message.getD "AI service error. Please try again."

/-- Stand-in for the engine-specific `SyntaxError` message of
`JSON.parse` (for example `Unexpected token ...`).  The handler only ever
tests this message for the substrings `temporarily busy` and `try again`
(index.ts line 476), which no engine's parse error message contains. -/
def jsonParseErrMsg : String := "Unexpected token in JSON"

/-- The extraction-plus-parse pipeline applied to model output
(index.ts lines 466–468 and 492–494): `extractJsonCandidate`, then
`normalizeJsonText`, then `JSON.parse`. -/
def parsePipeline (content : String) : Except String JsonVal :=
  Except.bind (extractJsonCandidate content) (fun jt =>
    match jsonParse (normalizeJsonText jt) with
    | some v => Except.ok v
    | none => Except.error jsonParseErrMsg)

/-- Embeds the `try` block of index.ts lines 435–469: either a parsed
itinerary or the thrown error message, together with the value of the
mutable `rawContent` binding after the block (`none` models both `null`
and the never-assigned case). -/
def firstPass (d : GatewayResponse) : Except String JsonVal × Option String :=
  if d.topError then
    (Except.error (d.topErrorMessage.getD "Lovable AI internal error"), none)
  else
    match d.choiceErr with
    | some ce => (Except.error (choiceErrorMessage ce), none)
    | none =>
      match d.content with
      | none => (Except.error "No content found in AI response", none)
      | some c =>
        if c = "" then (Except.error "No content found in AI response", some "")
        else (parsePipeline c, some c)

/-- The stored error message of the placeholder document
(index.ts line 500). -/
def invalidFormatMsg : String :=
  "AI returned an invalid itinerary format. Please tap Generate/Regenerate Itinerary to try again."

/-- The error-placeholder itinerary of index.ts lines 499–502:
`{ error: ..., rawContent: rawContent || null }`. -/
def placeholderDoc (rawContent : Option String) : JsonVal :=
  JsonVal.obj [("error", JsonVal.str invalidFormatMsg),
    ("rawContent",
      match rawContent with
      | some rc => if rc = "" then JsonVal.null else JsonVal.str rc
      | none => JsonVal.null)]

/-- An HTTP response of the handler, projected to its status code and
the JSON body fields it ever sets. -/
structure HttpResponse where
  status : ℕ
  success : Option Bool
  error : Option JsonVal
  retryable : Option Bool
  itinerary : Option JsonVal
  message : Option String

/-- Embeds index.ts lines 433–504: the parse attempt, the rate-limit
short-circuit of lines 475–486 (an early `429` response), and the repair
escalation of lines 488–503.  `repairResult` is the outcome of the
`repairJsonWithAi` gateway call — the repaired content string, or the
message it throws; it is consulted only where the source calls
`repairJsonWithAi`, i.e. when `rawContent` is truthy. -/
def computeItinerary (d : GatewayResponse)
    (repairResult : Except String String) : Except HttpResponse JsonVal :=
  match firstPass d with
  | (Except.ok it, _) => Except.ok it
  | (Except.error msg, rawContent) =>
    if jsIncludes msg "temporarily busy" || jsIncludes msg "try again" then
      Except.error
        { status := 429, success := some false,
          error := some (JsonVal.str msg), retryable := some true,
          itinerary := none, message := none }
    else
      let repaired : Except String JsonVal :=
        match rawContent with
        | none => Except.error "Missing rawContent for repair"
        | some rc =>
          if rc = "" then Except.error "Missing rawContent for repair"
          else
            match repairResult with
            | Except.error e => Except.error e
            | Except.ok repairedContent => parsePipeline repairedContent
      match repaired with
      | Except.ok it => Except.ok it
      | Except.error _ => Except.ok (placeholderDoc rawContent)

/-- Result of the final store write as reported by the database client:
the number of rows the update affected, and the error the client
reported, if any.  (The PostgREST-backed client reports no error for an
update whose filters match zero rows; the two fields are therefore
independent inputs to the model.) -/
structure WriteResult where
  rowsAffected : ℕ
  reportedError : Option String

/-- Embeds index.ts lines 506–548: computes the itinerary, derives the
next status (`'draft'` when the stored document has a truthy `error`
member, else `'planned'`, line 509), issues the store write, and builds
the HTTP response — the success body of lines 527–537, the outer-catch
500 of lines 539–548 when the client reported a write error, or the
early 429 with no write at all.  The first component is the write
request `(ai_itinerary, status)` sent to the store (`none` when no write
was attempted). -/
def runPlanner (d : GatewayResponse) (repairResult : Except String String)
    (w : WriteResult) : Option (JsonVal × String) × HttpResponse :=
  match computeItinerary d repairResult with
  | Except.error resp => (none, resp)
  | Except.ok it =>
    let nextStatus := if jsTruthyOpt (jsGet it "error") then "draft" else "planned"
    match w.reportedError with
    | some m =>
      (some (it, nextStatus),
       { status := 500, success := some false,
         error := some (JsonVal.str ("Failed to update trip: " ++ m)),
         retryable := none, itinerary := none, message := none })
    | none =>
      let success := !(jsTruthyOpt (jsGet it "error"))
      (some (it, nextStatus),
       { status := 200, success := some success,
         error := if success then none else jsGet it "error",
         retryable := if success then none else some true,
         itinerary := some it,
         message := if success then some "Trip planned successfully with AI!" else none })

/-- Outcome of the trip-ownership authorization step. -/
inductive AuthzOutcome where
  | notFound : AuthzOutcome
  | forbidden : AuthzOutcome
  | authorized : AuthzOutcome
deriving DecidableEq

/-- Embeds index.ts lines 280–300: `tripOwner` is the `user_id` of the
trip row when the single-row lookup succeeds (`none` models
`tripError || !trip`, the 404 branch); an existing trip whose owner
differs from the caller takes the 403 branch, and otherwise the handler
proceeds. -/
def authorizeTrip (tripOwner : Option String) (userId : String) : AuthzOutcome :=
  match tripOwner with
  | none => AuthzOutcome.notFound
  | some owner =>
    if owner ≠ userId then AuthzOutcome.forbidden else AuthzOutcome.authorized

/-- HTTP status the handler responds with for each authorization
outcome (`none`: the request proceeds past authorization). -/
def authzStatus : AuthzOutcome → Option ℕ
  | AuthzOutcome.notFound => some 404
  | AuthzOutcome.forbidden => some 403
  | AuthzOutcome.authorized => none

/-- Embeds `validateTripInput` (index.ts lines 29–122), chaining the
checks in source order; the first failure wins (a thrown error
propagates, modelled by `Except.bind`). -/
def validateTripInput (body : JsonVal) : Except String TripRequest :=
  Except.bind (requireObject body) (fun _ =>
  Except.bind (checkTripId body) (fun tripId =>
  Except.bind (checkDestination body) (fun destination =>
  Except.bind (checkDateField body "startDate" "Invalid or missing startDate (format: YYYY-MM-DD)") (fun startDate =>
  Except.bind (checkDateField body "endDate" "Invalid or missing endDate (format: YYYY-MM-DD)") (fun endDate =>
  Except.bind (checkDateLogic startDate endDate) (fun _ =>
  Except.bind (checkTravelers body) (fun travelers =>
  Except.bind (checkBudget body) (fun budget =>
  Except.bind (checkPreferences body) (fun preferences =>
    Except.ok
      { tripId := tripId
        destination := sanitizeString destination 200
        startDate := startDate
        endDate := endDate
        travelers := travelers
        budget := budget
        preferences := preferences })))))))))

/-! ### Concrete instances used by the theorems -/

/-- A well-formed trip id used by the concrete request bodies. -/
def uuidA : String := "123e4567-e89b-12d3-a456-426614174000"

/-- Request body with the four required fields. -/
def mkBody (dest sd ed : String) : JsonVal :=
  JsonVal.obj [
    ("tripId", JsonVal.str uuidA),
    ("destination", JsonVal.str dest),
    ("startDate", JsonVal.str sd),
    ("endDate", JsonVal.str ed)]

/-- Body whose dates span exactly 90 days. -/
def bodySpan90 : JsonVal := mkBody "Goa" "2024-01-01" "2024-03-31"

/-- The trip request `bodySpan90` validates to. -/
def tripSpan90 : TripRequest :=
  { tripId := uuidA, destination := "Goa", startDate := "2024-01-01",
    endDate := "2024-03-31", travelers := 1, budget := none, preferences := [] }

/-- Body whose dates span 91 days. -/
def bodySpan91 : JsonVal := mkBody "Goa" "2024-01-01" "2024-04-01"

/-- Body whose end date precedes its start date. -/
def bodyReversed : JsonVal := mkBody "Goa" "2024-06-03" "2024-06-01"

/-- Body whose destination is the string `<>`: non-empty, but made
entirely of characters the sanitizer strips. -/
def bodyAngleDest : JsonVal := mkBody "<>" "2024-06-01" "2024-06-03"

/-- The trip request `bodyAngleDest` validates to (empty destination). -/
def tripAngleDest : TripRequest :=
  { tripId := uuidA, destination := "", startDate := "2024-06-01",
    endDate := "2024-06-03", travelers := 1, budget := none, preferences := [] }

/-- Body whose destination consists of the two brace characters. -/
def bodyBraceDest : JsonVal := mkBody "\x7b\x7d" "2024-06-01" "2024-06-03"

/-- A fully-populated valid body. -/
def bodyParis : JsonVal :=
  JsonVal.obj [
    ("tripId", JsonVal.str uuidA),
    ("destination", JsonVal.str "Paris"),
    ("startDate", JsonVal.str "2024-06-01"),
    ("endDate", JsonVal.str "2024-06-03"),
    ("travelers", JsonVal.num 2),
    ("budget", JsonVal.num 50000),
    ("preferences", JsonVal.arr [JsonVal.str "Food & Drinks"])]

/-- The trip request `bodyParis` validates to. -/
def tripParis : TripRequest :=
  { tripId := uuidA, destination := "Paris", startDate := "2024-06-01",
    endDate := "2024-06-03", travelers := 2, budget := some 50000,
    preferences := ["Food & Drinks"] }

/-- Serialization of a validated `TripRequest` back into a request body,
for feeding the validator its own output. -/
def bodyOfTrip (r : TripRequest) : JsonVal :=
  JsonVal.obj [
    ("tripId", JsonVal.str r.tripId),
    ("destination", JsonVal.str r.destination),
    ("startDate", JsonVal.str r.startDate),
    ("endDate", JsonVal.str r.endDate),
    ("travelers", JsonVal.num r.travelers),
    ("budget", match r.budget with
      | some q => JsonVal.num q
      | none => JsonVal.null),
    ("preferences", JsonVal.arr (r.preferences.map JsonVal.str))]

/-- The raw metadata string of a gateway rate-limit payload:
`{"error":{"status":"RESOURCE_EXHAUSTED"}}`. -/
def rateLimitMetaRaw : String :=
  "\x7b\"error\":\x7b\"status\":\"RESOURCE_EXHAUSTED\"\x7d\x7d"

/-- A completion response carrying an embedded choice error whose
metadata reports `RESOURCE_EXHAUSTED`, with the message string a real
gateway would attach. -/
def gwRateLimited : GatewayResponse :=
  { topError := false, topErrorMessage := none,
    choiceErr := some { message := some "Quota exceeded",
                        metadataRaw := some rateLimitMetaRaw },
    content := none }

/-- A completion response whose content parses to a document that itself
carries an `error` member: `{"error":"x"}`. -/
def gwErrorFieldDoc : GatewayResponse :=
  { topError := false, topErrorMessage := none, choiceErr := none,
    content := some "\x7b\"error\":\"x\"\x7d" }

/-- A completion response whose content parses cleanly: `{"a": 1}`. -/
def gwGood : GatewayResponse :=
  { topError := false, topErrorMessage := none, choiceErr := none,
    content := some "\x7b\"a\": 1\x7d" }

/-- A completion response whose content is not JSON at all. -/
def gwGarbage : GatewayResponse :=
  { topError := false, topErrorMessage := none, choiceErr := none,
    content := some "I could not produce an itinerary, sorry!" }

/-- A write result: one row updated, no reported error. -/
def writeOk : WriteResult := { rowsAffected := 1, reportedError := none }

/-- A write result: the filters matched no row (for example because
ownership changed between the authorization check and the write), and
the client reported no error. -/
def writeZeroRows : WriteResult := { rowsAffected := 0, reportedError := none }

/-- The well-formed JSON input of the normalization counterexample:
`{"a":", }"}` — a one-member object whose string value is `, }`. -/
def jsonC5 : String := "\x7b\"a\":\", \x7d\"\x7d"

lemma except_bind_ok {ε α β : Type} {x : Except ε α} {f : α → Except ε β} {r : β}
    (h : Except.bind x f = Except.ok r) :
    ∃ a, x = Except.ok a ∧ f a = Except.ok r := by
  cases x with
  | error e => simp [Except.bind] at h
  | ok a => exact ⟨a, rfl, h⟩

lemma sanitize_idem (s : String) (n : ℕ) :
    sanitizeString (sanitizeString s n) n = sanitizeString s n := by
  unfold sanitizeString
  congr 1
  rw [List.take_of_length_le
      (le_trans (List.length_filter_le _ _) (List.length_take_le _ _))]
  rw [List.filter_eq_self]
  intro a ha
  exact (List.mem_filter.mp ha).2

lemma sanitize_length_le (s : String) (n : ℕ) :
    (sanitizeString s n).length ≤ n :=
  le_trans (List.length_filter_le _ _) (List.length_take_le _ _)


lemma count_filter_bool (p : Char → Bool) (l : List Char) (c : Char) :
    (l.filter p).count c = if p c = true then l.count c else 0 := by
  induction l with
  | nil => simp
  | cons a t ih =>
    simp only [List.filter_cons]
    by_cases hpa : p a = true <;> by_cases hpc : p c = true <;>
      by_cases hac : a = c <;>
      simp_all [List.count_cons]

/-- Claim C8: sanitization is idempotent — sanitizing an already-sanitized
string returns it unchanged — and it removes exactly the characters
less-than, greater-than, left brace and right brace from the
length-limited input, leaving the count of every other character
untouched. -/
theorem claim8_theorem :
    (∀ (s : String) (n : ℕ),
      sanitizeString (sanitizeString s n) n = sanitizeString s n) ∧
    (∀ (s : String) (n : ℕ) (c : Char),
      (sanitizeString s n).data.count c =
        if c = '<' ∨ c = '>' ∨ c = lbrace ∨ c = rbrace then 0
        else (s.data.take n).count c) := by
  refine ⟨sanitize_idem, ?_⟩
  intro s n c
  show ((s.data.take n).filter _).count c = _
  rw [count_filter_bool]
  by_cases h : c = '<' ∨ c = '>' ∨ c = lbrace ∨ c = rbrace
  · simp [h]
  · simp [h]

/-- Claim C10: there exists a request body accepted by the validator
whose returned trip request has an empty destination — the
non-empty-after-trimming check runs on the raw input before
sanitization, so a destination made only of brace characters passes
validation yet sanitizes to the empty string. -/
theorem claim10_theorem :
    validateTripInput bodyBraceDest = Except.ok
      { tripId := uuidA, destination := "", startDate := "2024-06-01",
        endDate := "2024-06-03", travelers := 1, budget := none,
        preferences := [] } ∧
    jsTrim "\x7b\x7d" ≠ "" := ⟨rfl, by decide⟩

/-- Claim C4: the normalizer rewrites a value position that is exactly a
two-operand multiplication of numeric literals followed by a separator
into its computed rounded integer, strips a parenthetical annotation
after a numeric value before a separator, and neither rewrite fires on
inputs not of these exact shapes (a multiplication inside a string with
no following separator, a product not followed by a separator, or a
parenthetical not followed by a separator). -/
theorem claim4_theorem :
    normalizeJsonText "\x7b\"estimatedCost\": 230 * 6,\n\"x\": 1\x7d" =
      "\x7b\"estimatedCost\": 1380,\"x\": 1\x7d" ∧
    normalizeJsonText "\x7b\"transport\": 2000 (Taxi fare),\"x\": 1\x7d" =
      "\x7b\"transport\": 2000,\"x\": 1\x7d" ∧
    normalizeJsonText "\x7b\"note\": \"cost is 2 * 3 apples\"\x7d" =
      "\x7b\"note\": \"cost is 2 * 3 apples\"\x7d" ∧
    normalizeJsonText "\x7b\"a\": 230 * 6 USD\x7d" = "\x7b\"a\": 230 * 6 USD\x7d" ∧
    normalizeJsonText "\x7b\"a\": 2000 (Taxi fare) extra\x7d" =
      "\x7b\"a\": 2000 (Taxi fare) extra\x7d" :=
  ⟨rfl, rfl, rfl, rfl, rfl⟩

/-- Claim C5 (code bug witness): the claim says normalization preserves
the parsed value of every well-formed JSON string, but the rewrites are
string-blind — on the valid input of `jsonC5` the trailing-comma rewrite
fires inside a string literal, so the normalized text parses to a
different value. -/
theorem claim5_theorem :
    jsonParse jsonC5 = some (JsonVal.obj [("a", JsonVal.str ", \x7d")]) ∧
    normalizeJsonText jsonC5 = "\x7b\"a\":\"\x7d\"\x7d" ∧
    jsonParse (normalizeJsonText jsonC5) =
      some (JsonVal.obj [("a", JsonVal.str "\x7d")]) ∧
    JsonVal.obj [("a", JsonVal.str ", \x7d")] ≠
      JsonVal.obj [("a", JsonVal.str "\x7d")] := by
  refine ⟨rfl, rfl, rfl, ?_⟩
  intro h
  simp only [JsonVal.obj.injEq, List.cons.injEq, Prod.mk.injEq,
    JsonVal.str.injEq, and_true, true_and] at h
  exact absurd h (by decide)

/-- Claim C6: for every existing trip whose owning identity differs from
the caller the handler answers Forbidden (403), never NotFound; the 404
outcome is reserved for a failed lookup. -/
theorem claim6_theorem :
    (∀ owner userId : String, owner ≠ userId →
      authorizeTrip (some owner) userId = AuthzOutcome.forbidden ∧
      authzStatus (authorizeTrip (some owner) userId) = some 403) ∧
    (∀ userId : String, authorizeTrip none userId = AuthzOutcome.notFound) ∧
    (∀ owner userId : String,
      authorizeTrip (some owner) userId ≠ AuthzOutcome.notFound) := by
  refine ⟨?_, fun _ => rfl, ?_⟩
  · intro o u h
    have hf : authorizeTrip (some o) u = AuthzOutcome.forbidden := by
      show (if o ≠ u then AuthzOutcome.forbidden else AuthzOutcome.authorized) =
        AuthzOutcome.forbidden
      rw [if_pos h]
    exact ⟨hf, by rw [hf]; rfl⟩
  · intro o u
    show (if o ≠ u then AuthzOutcome.forbidden else AuthzOutcome.authorized) ≠
      AuthzOutcome.notFound
    by_cases h : o ≠ u
    · rw [if_pos h]
      simp
    · rw [if_neg h]
      simp


/-- Witness for claim6_theorem at concrete distinct identities. -/
theorem claim6_witness :
    authorizeTrip (some "owner-1") "caller-2" = AuthzOutcome.forbidden ∧
    authzStatus (authorizeTrip (some "owner-1") "caller-2") = some 403 :=
  claim6_theorem.1 "owner-1" "caller-2" (by decide)

/-- Claim C2 (code bug witness): for the completion response
`gwRateLimited`, whose embedded choice error carries metadata reporting
`RESOURCE_EXHAUSTED`, the claim says the handler answers HTTP 429
retryable without repair; in the source the rate-limit `throw` is
swallowed by its own `catch (e)` (commented as ignoring only metadata
parse errors), the generic message `Quota exceeded` is rethrown, fails
the substring routing, and the handler instead persists the error
placeholder with status `draft` and answers HTTP 200 — for every repair
oracle, i.e. without any repair request being consulted. -/
theorem claim2_theorem :
    (∃ v, jsonParse rateLimitMetaRaw = some v ∧ isRateLimitMeta v = true) ∧
    (∀ repairResult : Except String String,
      runPlanner gwRateLimited repairResult writeOk =
        (some (placeholderDoc none, "draft"),
         { status := 200, success := some false,
           error := some (JsonVal.str invalidFormatMsg),
           retryable := some true,
           itinerary := some (placeholderDoc none), message := none })) := by
  exact ⟨⟨_, rfl, rfl⟩, fun repairResult => rfl⟩

lemma except_bind_error {ε α β : Type} {x : Except ε α} {f : α → Except ε β}
    {m : ε} (h : Except.bind x f = Except.error m) :
    x = Except.error m ∨ ∃ a, x = Except.ok a ∧ f a = Except.error m := by
  cases x with
  | error e =>
    left
    have h2 : (Except.error e : Except ε β) = Except.error m := h
    injection h2 with h3
    rw [h3]
  | ok a => exact Or.inr ⟨a, rfl, h⟩

lemma extract_error_msg {c e : String}
    (h : extractJsonCandidate c = Except.error e) :
    e = "No JSON object found in AI response" := by
  unfold extractJsonCandidate at h
  cases hx : extractJsonCore c with
  | some s =>
    rw [hx] at h
    simp at h
  | none =>
    rw [hx] at h
    injection h with h2
    exact h2.symm

lemma parsePipeline_error_msg {c m : String}
    (h : parsePipeline c = Except.error m) :
    m = "No JSON object found in AI response" ∨ m = jsonParseErrMsg := by
  unfold parsePipeline at h
  rcases except_bind_error h with he | ⟨jt, hjt, hf⟩
  · left
    exact (extract_error_msg he).symm ▸ rfl
  · cases hp : jsonParse (normalizeJsonText jt) with
    | some v =>
      rw [hp] at hf
      simp at hf
    | none =>
      rw [hp] at hf
      injection hf with h2
      right
      exact h2.symm

lemma parsePipeline_error_not_routed {c m : String}
    (h : parsePipeline c = Except.error m) :
    (jsIncludes m "temporarily busy" || jsIncludes m "try again") = false := by
  rcases parsePipeline_error_msg h with h1 | h1 <;> subst h1 <;> rfl

lemma firstPass_content (c : String) (hc : c ≠ "") :
    firstPass (GatewayResponse.mk false none none (some c)) =
      (parsePipeline c, some c) := by
  unfold firstPass
  exact if_neg hc

lemma computeItinerary_content_fail {c m : String}
    {rep : Except String String}
    (hc : c ≠ "") (hpe : parsePipeline c = Except.error m)
    (hrep : ∀ rc, rep = Except.ok rc → ∃ m2, parsePipeline rc = Except.error m2) :
    computeItinerary (GatewayResponse.mk false none none (some c)) rep =
      Except.ok (placeholderDoc (some c)) := by
  unfold computeItinerary
  rw [firstPass_content c hc, hpe]
  simp only [parsePipeline_error_not_routed hpe, Bool.false_eq_true, if_false]
  rw [if_neg hc]
  cases rep with
  | error e => rfl
  | ok rc =>
    obtain ⟨m2, hm2⟩ := hrep rc rfl
    simp only [hm2]

lemma computeItinerary_content_ok {c : String} {it : JsonVal}
    {rep : Except String String}
    (hc : c ≠ "") (hpe : parsePipeline c = Except.ok it) :
    computeItinerary (GatewayResponse.mk false none none (some c)) rep =
      Except.ok it := by
  unfold computeItinerary
  rw [firstPass_content c hc, hpe]

lemma computeItinerary_repair_ok {c rc m : String} {it : JsonVal}
    (hc : c ≠ "") (hpe : parsePipeline c = Except.error m)
    (hrc : parsePipeline rc = Except.ok it) :
    computeItinerary (GatewayResponse.mk false none none (some c))
        (Except.ok rc) = Except.ok it := by
  unfold computeItinerary
  rw [firstPass_content c hc, hpe]
  simp only [parsePipeline_error_not_routed hpe, Bool.false_eq_true, if_false]
  rw [if_neg hc]
  simp only [hrc]

lemma runPlanner_writeReq {d : GatewayResponse} {rep : Except String String}
    {w : WriteResult} {it : JsonVal}
    (h : computeItinerary d rep = Except.ok it) :
    (runPlanner d rep w).1 =
      some (it, if jsTruthyOpt (jsGet it "error") then "draft" else "planned") := by
  unfold runPlanner
  rw [h]
  cases w.reportedError <;> rfl

lemma jsGet_placeholder_error (rc : Option String) :
    jsGet (placeholderDoc rc) "error" = some (JsonVal.str invalidFormatMsg) := by
  cases rc with
  | none => rfl
  | some c => rfl

/-- Claim C7 counterexample: a final store write that affects zero rows
but is reported error-free by the client produces the full success
response, not a 500 PersistenceError. -/
theorem claim7_counterexample :
    runPlanner gwGood (Except.error "unused") writeZeroRows =
      (some (JsonVal.obj [("a", JsonVal.num 1)], "planned"),
       { status := 200, success := some true, error := none,
         retryable := none,
         itinerary := some (JsonVal.obj [("a", JsonVal.num 1)]),
         message := some "Trip planned successfully with AI!" }) ∧
    writeZeroRows.rowsAffected = 0 ∧ writeZeroRows.reportedError = none :=
  ⟨rfl, rfl, rfl⟩

/-- Claim C7 (amended): the handler fails with a 500-class response
exactly when the store client reports a write error; the affected-row
count is never inspected (the outcome is invariant under it), so a
zero-row write reported without error is indistinguishable from a
successful one. -/
theorem claim7_theorem :
    (∀ (d : GatewayResponse) (rep : Except String String)
       (e : Option String) (n₁ n₂ : ℕ),
      runPlanner d rep { rowsAffected := n₁, reportedError := e } =
        runPlanner d rep { rowsAffected := n₂, reportedError := e }) ∧
    (∀ (d : GatewayResponse) (rep : Except String String)
       (n : ℕ) (m : String) (it : JsonVal),
      computeItinerary d rep = Except.ok it →
      runPlanner d rep { rowsAffected := n, reportedError := some m } =
        (some (it, if jsTruthyOpt (jsGet it "error") then "draft" else "planned"),
         { status := 500, success := some false,
           error := some (JsonVal.str ("Failed to update trip: " ++ m)),
           retryable := none, itinerary := none, message := none })) := by
  constructor
  · intro d rep e n1 n2
    unfold runPlanner
    cases computeItinerary d rep <;> rfl
  · intro d rep n m it h
    unfold runPlanner
    rw [h]

/-- Witness for claim7_theorem at a concrete parsed itinerary and a
concrete reported write error. -/
theorem claim7_witness :
    runPlanner gwGood (Except.error "gateway down")
        { rowsAffected := 1, reportedError := some "connection reset" } =
      (some (JsonVal.obj [("a", JsonVal.num 1)], "planned"),
       { status := 500, success := some false,
         error := some (JsonVal.str "Failed to update trip: connection reset"),
         retryable := none, itinerary := none, message := none }) :=
  claim7_theorem.2 gwGood (Except.error "gateway down") 1 "connection reset"
    (JsonVal.obj [("a", JsonVal.num 1)]) (by rfl)

/-- Claim C1 counterexample: a gateway output whose content parses
successfully on the first attempt but whose parsed document itself
carries a truthy `error` member is persisted with status `draft`, not
`planned` as the claim states. -/
theorem claim1_counterexample :
    parsePipeline "\x7b\"error\":\"x\"\x7d" =
      Except.ok (JsonVal.obj [("error", JsonVal.str "x")]) ∧
    runPlanner gwErrorFieldDoc (Except.error "unused") writeOk =
      (some (JsonVal.obj [("error", JsonVal.str "x")], "draft"),
       { status := 200, success := some false,
         error := some (JsonVal.str "x"), retryable := some true,
         itinerary := some (JsonVal.obj [("error", JsonVal.str "x")]),
         message := none }) ∧
    "draft" ≠ "planned" :=
  ⟨rfl, rfl, by decide⟩

/-- Claim C1 (amended): for every gateway output with string content,
when extraction/parse fails on both the primary attempt and the repair
attempt the handler does not raise — it persists the error placeholder
holding the original raw content and sets status `draft` (responding 200
with a retryable error when the write succeeds); when either attempt
parses, the parsed document is persisted with status `planned` unless
that document itself carries a truthy `error` member, in which case
`draft`. -/
theorem claim1_theorem :
    (∀ (c : String) (rep : Except String String) (w : WriteResult) (m : String),
      c ≠ "" →
      parsePipeline c = Except.error m →
      (∀ rc, rep = Except.ok rc → ∃ m2, parsePipeline rc = Except.error m2) →
      (runPlanner (GatewayResponse.mk false none none (some c)) rep w).1 =
          some (placeholderDoc (some c), "draft") ∧
        placeholderDoc (some c) =
          JsonVal.obj [("error", JsonVal.str invalidFormatMsg),
            ("rawContent", JsonVal.str c)] ∧
        (w.reportedError = none →
          (runPlanner (GatewayResponse.mk false none none (some c)) rep w).2 =
            { status := 200, success := some false,
              error := some (JsonVal.str invalidFormatMsg),
              retryable := some true,
              itinerary := some (placeholderDoc (some c)), message := none })) ∧
    (∀ (c : String) (rep : Except String String) (w : WriteResult) (it : JsonVal),
      c ≠ "" →
      parsePipeline c = Except.ok it →
      (runPlanner (GatewayResponse.mk false none none (some c)) rep w).1 =
        some (it, if jsTruthyOpt (jsGet it "error") then "draft" else "planned")) ∧
    (∀ (c rc m : String) (w : WriteResult) (it : JsonVal),
      c ≠ "" →
      parsePipeline c = Except.error m →
      parsePipeline rc = Except.ok it →
      (runPlanner (GatewayResponse.mk false none none (some c))
          (Except.ok rc) w).1 =
        some (it, if jsTruthyOpt (jsGet it "error") then "draft" else "planned")) := by
  refine ⟨?_, ?_, ?_⟩
  · intro c rep w m hc hpe hrep
    have hcomp := computeItinerary_content_fail hc hpe hrep
    refine ⟨?_, ?_, ?_⟩
    · rw [runPlanner_writeReq hcomp]
      rfl
    · simp only [placeholderDoc]
      rw [if_neg hc]
    · intro hw
      unfold runPlanner
      rw [hcomp, hw]
      rfl
  · intro c rep w it hc hpe
    exact runPlanner_writeReq (computeItinerary_content_ok hc hpe)
  · intro c rc m w it hc hpe hrc
    exact runPlanner_writeReq (computeItinerary_repair_ok hc hpe hrc)

/-- Witness for claim1_theorem at a concrete unparseable content string
with a failing repair call. -/
theorem claim1_witness :
    (runPlanner (GatewayResponse.mk false none none (some "The model declined."))
        (Except.error "gateway unreachable") writeOk).1 =
      some (placeholderDoc (some "The model declined."), "draft") :=
  (claim1_theorem.1 "The model declined." (Except.error "gateway unreachable")
      writeOk "No JSON object found in AI response" (by decide) (by rfl)
      (fun rc h => Except.noConfusion h)).1

lemma isValidUUID_ne_empty {t : String} (h : isValidUUID t = true) :
    t ≠ "" := by
  intro he
  subst he
  exact absurd h (by decide)

lemma isValidDateString_ne_empty {s : String}
    (h : isValidDateString s = true) : s ≠ "" := by
  intro he
  subst he
  exact absurd h (by decide)

lemma checkTripId_ok {b : JsonVal} {t : String}
    (h : checkTripId b = Except.ok t) : isValidUUID t = true := by
  unfold checkTripId at h
  split at h
  · simp at h
  · rename_i hcond
    injection h with h2
    rw [← h2]
    simp only [Bool.or_eq_true, Bool.not_eq_true'] at hcond
    push_neg at hcond
    have := hcond.2
    simpa using this

lemma checkDateField_ok {b : JsonVal} {k e s : String}
    (h : checkDateField b k e = Except.ok s) :
    isValidDateString s = true := by
  unfold checkDateField at h
  split at h
  · simp at h
  · rename_i hcond
    injection h with h2
    rw [← h2]
    simp only [Bool.or_eq_true, Bool.not_eq_true'] at hcond
    push_neg at hcond
    have := hcond.2
    simpa using this

lemma checkTravelers_ok {b : JsonVal} {q : ℚ}
    (h : checkTravelers b = Except.ok q) :
    ¬(q < 1 ∨ q > 20 ∨ q.den ≠ 1) := by
  unfold checkTravelers at h
  split at h
  · injection h with h2
    rw [← h2]
    decide
  · rename_i v hv
    split at h
    · simp at h
    · rename_i q0 hq0
      split at h
      · simp at h
      · rename_i hcond
        injection h with h2
        rw [← h2]
        exact hcond

lemma checkBudget_ok {b : JsonVal} {ob : Option ℚ}
    (h : checkBudget b = Except.ok ob) :
    ∀ q ∈ ob, ¬(q < 0 ∨ q > 100000000) := by
  unfold checkBudget at h
  split at h
  · injection h with h2
    rw [← h2]
    intro q hq
    simp at hq
  · injection h with h2
    rw [← h2]
    intro q hq
    simp at hq
  · rename_i v hv hvn
    split at h
    · simp at h
    · rename_i q0 hq0
      split at h
      · simp at h
      · rename_i hcond
        injection h with h2
        rw [← h2]
        intro q hq
        simp only [Option.mem_def, Option.some.injEq] at hq
        rw [← hq]
        exact hcond

lemma checkPreferences_ok {b : JsonVal} {l : List String}
    (h : checkPreferences b = Except.ok l) :
    l.length ≤ 15 ∧ ∀ p ∈ l, sanitizeString p 50 = p ∧ p.length > 0 := by
  unfold checkPreferences at h
  split at h
  · injection h with h2
    rw [← h2]
    exact ⟨by simp, by simp⟩
  · rename_i l0 hl0
    split at h
    · simp at h
    · rename_i hlen
      injection h with h2
      rw [← h2]
      constructor
      · calc ((((l0.filterMap getStr).map
              (fun p => sanitizeString p 50)).filter
              (fun p => p.length > 0)).length)
            ≤ (((l0.filterMap getStr).map (fun p => sanitizeString p 50)).length) :=
              List.length_filter_le _ _
          _ = ((l0.filterMap getStr).length) := List.length_map _ _
          _ ≤ l0.length := List.length_filterMap_le _ _
          _ ≤ 15 := by omega
      · intro p hp
        have hp1 := List.mem_filter.mp hp
        constructor
        · obtain ⟨p0, _, hp0⟩ := List.mem_map.mp hp1.1
          rw [← hp0]
          exact sanitize_idem p0 50
        · simpa using hp1.2
  · simp at h

lemma validate_ok {b : JsonVal} {r : TripRequest}
    (h : validateTripInput b = Except.ok r) :
    ∃ dest,
      checkTripId b = Except.ok r.tripId ∧
      checkDestination b = Except.ok dest ∧
      r.destination = sanitizeString dest 200 ∧
      checkDateField b "startDate" "Invalid or missing startDate (format: YYYY-MM-DD)" = Except.ok r.startDate ∧
      checkDateField b "endDate" "Invalid or missing endDate (format: YYYY-MM-DD)" = Except.ok r.endDate ∧
      checkDateLogic r.startDate r.endDate = Except.ok () ∧
      checkTravelers b = Except.ok r.travelers ∧
      checkBudget b = Except.ok r.budget ∧
      checkPreferences b = Except.ok r.preferences := by
  unfold validateTripInput at h
  obtain ⟨u0, h0, h⟩ := except_bind_ok h
  obtain ⟨tid, h1, h⟩ := except_bind_ok h
  obtain ⟨dest, h2, h⟩ := except_bind_ok h
  obtain ⟨sd, h3, h⟩ := except_bind_ok h
  obtain ⟨ed, h4, h⟩ := except_bind_ok h
  obtain ⟨u1, h5, h⟩ := except_bind_ok h
  obtain ⟨tv, h6, h⟩ := except_bind_ok h
  obtain ⟨bu, h7, h⟩ := except_bind_ok h
  obtain ⟨pf, h8, h⟩ := except_bind_ok h
  injection h with h9
  subst h9
  exact ⟨dest, h1, h2, rfl, h3, h4, h5, h6, h7, h8⟩

/-- Claim C3: every accepted request satisfies the date invariants — the
end date is not before the start date and the inclusive ceiling day span
is at most 90 — and the boundaries are exact: a 90-day span passes
validation and a 91-day span fails, as does a reversed date pair. -/
theorem claim3_theorem :
    (∀ (b : JsonVal) (r : TripRequest),
      validateTripInput b = Except.ok r →
      jsDateMs r.startDate ≤ jsDateMs r.endDate ∧
      durationDaysOfMs (jsDateMs r.startDate) (jsDateMs r.endDate) ≤ 90) ∧
    validateTripInput bodySpan90 = Except.ok tripSpan90 ∧
    durationDaysOfMs (jsDateMs "2024-01-01") (jsDateMs "2024-03-31") = 90 ∧
    validateTripInput bodySpan91 =
      Except.error "Trip duration cannot exceed 90 days" ∧
    durationDaysOfMs (jsDateMs "2024-01-01") (jsDateMs "2024-04-01") = 91 ∧
    validateTripInput bodyReversed =
      Except.error "End date must be after start date" := by
  refine ⟨?_, rfl, rfl, rfl, rfl, rfl⟩
  intro b r h
  obtain ⟨dest, _, _, _, _, _, h5, _⟩ := validate_ok h
  unfold checkDateLogic at h5
  split at h5
  · simp at h5
  · rename_i hlt
    split at h5
    · simp at h5
    · rename_i hdur
      exact ⟨le_of_not_lt hlt, le_of_not_lt hdur⟩

/-- Witness for claim3_theorem at the 90-day body. -/
theorem claim3_witness :
    validateTripInput bodySpan90 = Except.ok tripSpan90 ∧
    jsDateMs tripSpan90.startDate ≤ jsDateMs tripSpan90.endDate ∧
    durationDaysOfMs (jsDateMs tripSpan90.startDate)
      (jsDateMs tripSpan90.endDate) ≤ 90 :=
  ⟨rfl, (claim3_theorem.1 bodySpan90 tripSpan90 (by rfl)).1,
    (claim3_theorem.1 bodySpan90 tripSpan90 (by rfl)).2⟩

lemma strlen_zero_iff {s : String} : s.length = 0 ↔ s = "" := by
  cases s with
  | mk l =>
    cases l with
    | nil => simp [String.length]
    | cons a t =>
      constructor
      · intro h
        simp [String.length] at h
      · intro h
        exact absurd (congrArg String.data h) (by simp)

lemma checkTripId_body (r : TripRequest) (h : isValidUUID r.tripId = true) :
    checkTripId (bodyOfTrip r) = Except.ok r.tripId := by
  have hg : jsGet (bodyOfTrip r) "tripId" = some (JsonVal.str r.tripId) := rfl
  have hne := isValidUUID_ne_empty h
  have hbeq : (r.tripId == "") = false := beq_eq_false_iff_ne.mpr hne
  unfold checkTripId
  rw [hg]
  simp [jsTruthyOpt, jsTruthy, jsToString, hbeq, h]

lemma checkDestination_body (r : TripRequest) (hne : r.destination ≠ "")
    (htrim : jsTrim r.destination ≠ "") (hlen : r.destination.length ≤ 200) :
    checkDestination (bodyOfTrip r) = Except.ok r.destination := by
  have hg : jsGet (bodyOfTrip r) "destination" =
      some (JsonVal.str r.destination) := rfl
  unfold checkDestination
  rw [hg]
  simp only []
  rw [if_neg hne, if_neg (fun hz => htrim (strlen_zero_iff.mp hz)),
    if_neg (not_lt.mpr hlen)]

lemma checkDateField_str (b : JsonVal) (k emsg s : String)
    (hg : jsGet b k = some (JsonVal.str s))
    (hv : isValidDateString s = true) :
    checkDateField b k emsg = Except.ok s := by
  have hne := isValidDateString_ne_empty hv
  have hbeq : (s == "") = false := beq_eq_false_iff_ne.mpr hne
  unfold checkDateField
  rw [hg]
  simp [jsTruthyOpt, jsTruthy, jsToString, hbeq, hv]

lemma checkTravelers_body (r : TripRequest)
    (h : ¬(r.travelers < 1 ∨ r.travelers > 20 ∨ r.travelers.den ≠ 1)) :
    checkTravelers (bodyOfTrip r) = Except.ok r.travelers := by
  have hg : jsGet (bodyOfTrip r) "travelers" =
      some (JsonVal.num r.travelers) := rfl
  unfold checkTravelers
  rw [hg]
  simp only [jsToNumber]
  rw [if_neg h]

lemma checkBudget_body (r : TripRequest)
    (h : ∀ q ∈ r.budget, ¬(q < 0 ∨ q > 100000000)) :
    checkBudget (bodyOfTrip r) = Except.ok r.budget := by
  cases hb : r.budget with
  | none =>
    have hg : jsGet (bodyOfTrip r) "budget" = some JsonVal.null := by
      unfold bodyOfTrip jsGet
      rw [hb]
      rfl
    unfold checkBudget
    rw [hg]
  | some q =>
    have hg : jsGet (bodyOfTrip r) "budget" = some (JsonVal.num q) := by
      unfold bodyOfTrip jsGet
      rw [hb]
      rfl
    unfold checkBudget
    rw [hg]
    simp only [jsToNumber]
    rw [if_neg (h q (by rw [hb]; rfl))]

lemma checkPreferences_body (r : TripRequest)
    (hlen : r.preferences.length ≤ 15)
    (hmem : ∀ p ∈ r.preferences, sanitizeString p 50 = p ∧ p.length > 0) :
    checkPreferences (bodyOfTrip r) = Except.ok r.preferences := by
  have hg : jsGet (bodyOfTrip r) "preferences" =
      some (JsonVal.arr (r.preferences.map JsonVal.str)) := rfl
  unfold checkPreferences
  rw [hg]
  simp only []
  rw [if_neg (by rw [List.length_map]; exact not_lt.mpr hlen)]
  have h1 : (r.preferences.map JsonVal.str).filterMap getStr = r.preferences := by
    rw [List.filterMap_map]
    have : (getStr ∘ JsonVal.str) = some := rfl
    rw [this, List.filterMap_some]
  have h2 : r.preferences.map (fun p => sanitizeString p 50) = r.preferences := by
    rw [List.map_congr_left (fun p hp => (hmem p hp).1)]
    exact List.map_id' r.preferences
  have h3 : r.preferences.filter (fun p => p.length > 0) = r.preferences :=
    List.filter_eq_self.mpr (fun p hp => by simpa using (hmem p hp).2)
  rw [h1, h2, h3]

/-- Claim C9 (amended): re-validating a validated trip request returns
it unchanged, provided the returned destination is non-empty after
trimming (the unamended claim fails exactly when sanitization empties
the destination). -/
theorem claim9_theorem :
    ∀ (b : JsonVal) (r : TripRequest),
      validateTripInput b = Except.ok r →
      jsTrim r.destination ≠ "" →
      validateTripInput (bodyOfTrip r) = Except.ok r := by
  intro b r h hd
  obtain ⟨dest, h1, h2, hde, h3, h4, h5, h6, h7, h8⟩ := validate_ok h
  have hsd := checkDateField_ok h3
  have hed := checkDateField_ok h4
  have hdne : r.destination ≠ "" := fun he => hd (by rw [he]; rfl)
  have hdlen : r.destination.length ≤ 200 := by
    rw [hde]; exact sanitize_length_le dest 200
  have hsan : sanitizeString r.destination 200 = r.destination := by
    rw [hde]; exact sanitize_idem dest 200
  obtain ⟨hplen, hpmem⟩ := checkPreferences_ok h8
  have c1 := checkTripId_body r (checkTripId_ok h1)
  have c2 := checkDestination_body r hdne hd hdlen
  have c3 := checkDateField_str (bodyOfTrip r) "startDate"
    "Invalid or missing startDate (format: YYYY-MM-DD)" r.startDate rfl hsd
  have c4 := checkDateField_str (bodyOfTrip r) "endDate"
    "Invalid or missing endDate (format: YYYY-MM-DD)" r.endDate rfl hed
  have c6 := checkTravelers_body r (checkTravelers_ok h6)
  have c7 := checkBudget_body r (checkBudget_ok h7)
  have c8 := checkPreferences_body r hplen hpmem
  unfold validateTripInput
  rw [show requireObject (bodyOfTrip r) = Except.ok () from rfl]
  simp only [Except.bind, c1, c2, c3, c4, h5, c6, c7, c8, hsan]

/-- Claim C9 counterexample: the body with destination consisting only
of stripped characters is accepted, but feeding the returned trip
request back into the validator fails. -/
theorem claim9_counterexample :
    validateTripInput bodyAngleDest = Except.ok tripAngleDest ∧
    tripAngleDest.destination = "" ∧
    validateTripInput (bodyOfTrip tripAngleDest) =
      Except.error "Destination is required" :=
  ⟨rfl, rfl, rfl⟩

/-- Witness for claim9_theorem at a fully-populated accepted body. -/
theorem claim9_witness :
    validateTripInput (bodyOfTrip tripParis) = Except.ok tripParis :=
  claim9_theorem bodyParis tripParis (by rfl) (by decide)
